import Mathlib

/-!
Verification of the website status checker (src/main.rs) against its
natural-language specification.

The development shallow-embeds the program:
the retry loop of check_website becomes a recursive Lean function over an
abstract probe environment; the argument-parsing while-loop of main becomes
a recursive function over the argument list; the line filter of
read_urls_from_file becomes a List.filter; the JSON-building loop becomes a
recursive string builder; the worker pool / mpsc channel machinery of main
becomes a small-step transition system over a system state holding the
pending queue, the per-worker states and the collected results.
Machine integers (u16 status codes, usize counts, millisecond durations)
are modelled as Nat: none of the verified claims involves overflow.
-/

namespace WSC

/-- Outcome of one HTTP probe, mirroring the Rust value
action_status : Result of u16 and String: a numeric status code on any
received response, or a transport error message. -/
inductive RStatus where
  | ok (code : Nat)
  | err (msg : String)
deriving DecidableEq

/-- Mirrors Rust Result::is_ok on the probe outcome. -/
def RStatus.is_ok : RStatus → Bool
  | RStatus.ok _ => true
  | RStatus.err _ => false

/-- Abstract behaviour of the network for one URL: the outcome of attempt k
and the wall-clock milliseconds consumed by attempt k.  The reqwest client
and the per-request timeout of the Rust code are absorbed into this
environment: the timeout only influences which outcome a probe yields. -/
structure ProbeEnv where
  result : Nat → RStatus
  dur : Nat → Nat

/-- Mirrors the Rust struct WebsiteStatus.  response_time (a Duration) is
modelled in whole milliseconds; timestamp (a SystemTime) in whole seconds
since the Unix epoch. -/
structure WebsiteStatus where
  url : String
  action_status : RStatus
  response_time : Nat
  timestamp : Nat
deriving DecidableEq

/-- The retry loop inside check_website.  State: the attempt counter and the
elapsed milliseconds accumulated so far.  Each iteration performs one probe
(client.get(url).timeout(timeout).send()), returns when the outcome is Ok or
the attempt counter has reached retries, and otherwise sleeps 100 ms and
retries.  Returns the final outcome, the total elapsed milliseconds
(start_time.elapsed() taken at the return point), and the number of probe
invocations performed, which the Rust code does not return and which is
carried here only so that attempt counts can be stated. -/
def checkLoop (env : ProbeEnv) (retries attempt elapsedMs : Nat) :
    RStatus × Nat × Nat :=
  let status := env.result attempt
  let el := elapsedMs + env.dur attempt
  if status.is_ok = true ∨ retries ≤ attempt then
    (status, el, 1)
  else
    let t := checkLoop env retries (attempt + 1) (el + 100)
    (t.1, t.2.1, t.2.2 + 1)
termination_by retries - attempt
decreasing_by
  simp only [not_or, Nat.not_le] at *
  omega

/-- Mirrors fn check_website(client, url, timeout, retries).  The client and
timeout arguments act only through the probe environment; completedAt is the
epoch-seconds reading of SystemTime::now() at the return point.  The second
component of the pair is the instrumented probe-invocation count. -/
def check_website (env : ProbeEnv) (url : String) (timeoutSecs retries completedAt : Nat) :
    WebsiteStatus × Nat :=
  let t := checkLoop env retries 0 0
  (⟨url, t.1, t.2.1, completedAt⟩, t.2.2)

/-- Sum of the durations of n consecutive probe attempts starting at
attempt a. -/
def durSum (env : ProbeEnv) (a : Nat) : Nat → Nat
  | 0 => 0
  | n + 1 => env.dur a + durSum env (a + 1) n

lemma checkLoop_allfail (env : ProbeEnv) (hfail : ∀ k, (env.result k).is_ok = false) :
    ∀ (n attempt el : Nat),
      checkLoop env (attempt + n) attempt el =
        (env.result (attempt + n), el + durSum env attempt (n + 1) + 100 * n, n + 1) := by
  intro n
  induction n with
  | zero =>
    intro attempt el
    rw [checkLoop]
    simp [hfail attempt, durSum]
  | succ n ih =>
    intro attempt el
    rw [checkLoop]
    have hlt : ¬ (attempt + (n + 1) ≤ attempt) := by omega
    simp only [hfail attempt, Bool.false_eq_true, false_or]
    rw [if_neg hlt]
    have harg : attempt + (n + 1) = (attempt + 1) + n := by omega
    rw [harg, ih (attempt + 1) (el + env.dur attempt + 100)]
    simp only [durSum, Prod.mk.injEq, true_and, and_true]
    ring

lemma checkLoop_bound (env : ProbeEnv) :
    ∀ (n retries attempt el : Nat), retries - attempt = n →
      (checkLoop env retries attempt el).2.2 ≤ n + 1 := by
  intro n
  induction n with
  | zero =>
    intro retries attempt el h
    rw [checkLoop]
    have : retries ≤ attempt := by omega
    simp [this]
  | succ n ih =>
    intro retries attempt el h
    rw [checkLoop]
    by_cases hc : (env.result attempt).is_ok = true ∨ retries ≤ attempt
    · simp [hc]
    · simp only [if_neg hc]
      have := ih retries (attempt + 1) (el + env.dur attempt + 100) (by omega)
      simpa using Nat.add_le_add_right this 1

/-- Claim C2: for a URL whose probe fails on every attempt, check_website
with retry bound R performs exactly R + 1 probe invocations, returns a
transport Failure (the outcome of the final attempt), and its elapsed time
spans the first attempt's start to the final attempt's completion: the sum
of the R + 1 probe durations plus the R inter-attempt delays of 100 ms. -/
theorem c2_all_attempts_fail_count_and_elapsed (env : ProbeEnv) (url : String)
    (timeoutSecs R completedAt : Nat)
    (hfail : ∀ k, (env.result k).is_ok = false) :
    (check_website env url timeoutSecs R completedAt).2 = R + 1 ∧
    (check_website env url timeoutSecs R completedAt).1.action_status = env.result R ∧
    (∃ msg, (check_website env url timeoutSecs R completedAt).1.action_status
        = RStatus.err msg) ∧
    (check_website env url timeoutSecs R completedAt).1.response_time
        = durSum env 0 (R + 1) + 100 * R := by
  have h := checkLoop_allfail env hfail R 0 0
  simp only [Nat.zero_add] at h
  refine ⟨?_, ?_, ?_, ?_⟩
  · simp [check_website, h]
  · simp [check_website, h]
  · have hf := hfail R
    rcases he : env.result R with code | msg
    · rw [he] at hf
      simp [RStatus.is_ok] at hf
    · exact ⟨msg, by simp [check_website, h, he]⟩
  · simp [check_website, h]

/-- Witness for C2 at a concrete always-failing environment with three
attempts of 30 ms each and retry bound 2: three probes, elapsed
30 + 100 + 30 + 100 + 30 = 290 ms. -/
def envFail : ProbeEnv :=
  ⟨fun _ => RStatus.err "connection refused", fun _ => 30⟩

theorem c2_all_attempts_fail_count_and_elapsed_witness :
    (check_website envFail "http://x" 5 2 0).2 = 3 ∧
    (check_website envFail "http://x" 5 2 0).1.action_status
        = RStatus.err "connection refused" ∧
    (check_website envFail "http://x" 5 2 0).1.response_time = 290 := by
  have h := c2_all_attempts_fail_count_and_elapsed envFail "http://x" 5 2 0
    (fun k => rfl)
  exact ⟨h.1, h.2.1, by rw [h.2.2.2]; rfl⟩

/-- Claim C3: whenever a probe completes with any HTTP response (the send
returns Ok, whatever the status code, 4xx and 5xx included), the loop
returns Success with that numeric code immediately, performing exactly one
probe on that iteration and no further attempts; and a URL that succeeds on
attempt 0 incurs zero retry delay, elapsed time equal to that single
probe's duration, and exactly one probe invocation in total. -/
theorem c3_http_response_returns_immediately (env : ProbeEnv) (url : String)
    (timeoutSecs R completedAt a el c : Nat)
    (h : env.result a = RStatus.ok c) :
    checkLoop env R a el = (RStatus.ok c, el + env.dur a, 1) ∧
    (a = 0 →
      (check_website env url timeoutSecs R completedAt).1.action_status = RStatus.ok c ∧
      (check_website env url timeoutSecs R completedAt).1.response_time = env.dur 0 ∧
      (check_website env url timeoutSecs R completedAt).2 = 1) := by
  have hone : ∀ e, checkLoop env R a e = (RStatus.ok c, e + env.dur a, 1) := by
    intro e
    rw [checkLoop]
    simp [h, RStatus.is_ok]
  refine ⟨hone el, ?_⟩
  intro ha
  subst ha
  have h0 : checkLoop env R 0 0 = (RStatus.ok c, env.dur 0, 1) := by
    simpa using hone 0
  exact ⟨by simp [check_website, h0], by simp [check_website, h0],
    by simp [check_website, h0]⟩

/-- Witness for C3: an environment whose probe returns HTTP 500 on attempt 0
answers in one probe with Success 500 and no delay, even with retries
available. -/
def envHttp500 : ProbeEnv :=
  ⟨fun _ => RStatus.ok 500, fun _ => 42⟩

theorem c3_http_response_returns_immediately_witness :
    checkLoop envHttp500 7 0 0 = (RStatus.ok 500, 42, 1) ∧
    (check_website envHttp500 "http://y" 5 7 0).1.action_status = RStatus.ok 500 ∧
    (check_website envHttp500 "http://y" 5 7 0).1.response_time = 42 ∧
    (check_website envHttp500 "http://y" 5 7 0).2 = 1 := by
  have h := c3_http_response_returns_immediately envHttp500 "http://y" 5 7 0 0 0 500 rfl
  have h2 := h.2 rfl
  exact ⟨by simpa using h.1, h2.1, h2.2.1, h2.2.2⟩

/-- Claim C9: the retry loop of check_website terminates after at most
R + 1 probe invocations for every environment and retry bound R: the
attempt counter strictly increases and the loop returns once the outcome is
a success or the counter reaches R. -/
theorem c9_attempts_bounded (env : ProbeEnv) (url : String)
    (timeoutSecs R completedAt : Nat) :
    (check_website env url timeoutSecs R completedAt).2 ≤ R + 1 := by
  have h := checkLoop_bound env (R - 0) R 0 0 rfl
  simpa [check_website] using h

/-- Rust char::is_whitespace restricted to the ASCII whitespace characters
(space, tab, line feed, carriage return), which is all the verified claims
exercise. -/
def isWsChar (c : Char) : Bool :=
  c.toNat = 32 || c.toNat = 9 || c.toNat = 10 || c.toNat = 13

/-- Rust str::trim: remove leading and trailing whitespace. -/
def trimChars (cs : List Char) : List Char :=
  ((cs.dropWhile isWsChar).reverse.dropWhile isWsChar).reverse

/-- Rust str::trim lifted to strings. -/
def rustTrim (s : String) : String :=
  ⟨trimChars s.data⟩

/-- Character-list version of Rust str::starts_with: the first argument
starts with the second. -/
def startsWithChars : List Char → List Char → Bool
  | _, [] => true
  | [], _ :: _ => false
  | c :: cs, p :: ps => c = p && startsWithChars cs ps

/-- Rust str::starts_with lifted to strings (the pattern being a char or a
string prefix makes no difference at this granularity). -/
def rustStartsWith (s pat : String) : Bool :=
  startsWithChars s.data pat.data

/-- Decimal accumulator for rustParseUsize. -/
def digitsVal (acc : Nat) : List Char → Option Nat
  | [] => some acc
  | c :: cs =>
    if 48 ≤ c.toNat ∧ c.toNat ≤ 57 then
      digitsVal (acc * 10 + (c.toNat - 48)) cs
    else
      none

/-- Rust str::parse::(usize): an optional leading plus sign followed by at
least one decimal digit; anything else fails.  usize overflow is not
modelled (results are Nat). -/
def rustParseUsize (s : String) : Option Nat :=
  match s.data with
  | [] => none
  | c :: cs =>
    if c.toNat = 43 then
      match cs with
      | [] => none
      | _ :: _ => digitsVal 0 cs
    else
      digitsVal 0 (c :: cs)

/-- Mirrors the line filter inside read_urls_from_file: a line is kept when
its trimmed content is non-empty and does not start with a '#'.  Note that
the filter only trims for the test; the line itself is collected as is. -/
def keepLine (line : String) : Bool :=
  let trimmed := rustTrim line
  !(trimmed == "") && !(rustStartsWith trimmed "#")

/-- Mirrors fn read_urls_from_file after File::open and BufReader::lines
succeed: the successfully read lines of the file are filtered by keepLine
and collected unchanged.  The filesystem itself is modelled at the
mainModel level as a partial map from paths to line lists. -/
def read_urls_from_file (lines : List String) : List String :=
  lines.filter keepLine

/-- Result of the argument-parsing while-loop of fn main. usageExit models
reaching print_usage_and_exit, which prints the usage line to stderr and
terminates the process with exit code 2 before any network activity. -/
inductive ParseResult where
  | usageExit
  | parsed (urls : List String) (file : Option String)
      (workers timeoutSecs retries : Nat)
deriving DecidableEq

/-- The argument-parsing while-loop of fn main, over the arguments after the
program name.  On a parse failure each flag keeps its fallback exactly as
in the source: *workers* keeps its current value, *timeout* becomes 5
seconds, *retries* becomes 0.  A recognized flag as the final argument has
no value and reaches print_usage_and_exit, as does any other argument
starting with "--"; anything else is accumulated as a positional URL. -/
def parseLoop (urls : List String) (file : Option String)
    (w t r : Nat) : List String → ParseResult
  | [] => ParseResult.parsed urls file w t r
  | [a] =>
    if a = "--file" ∨ a = "--workers" ∨ a = "--timeout" ∨ a = "--retries" then
      ParseResult.usageExit
    else if rustStartsWith a "--" then
      ParseResult.usageExit
    else
      ParseResult.parsed (urls ++ [a]) file w t r
  | a :: v :: rest =>
    if a = "--file" then
      parseLoop urls (some v) w t r rest
    else if a = "--workers" then
      parseLoop urls file ((rustParseUsize v).getD w) t r rest
    else if a = "--timeout" then
      parseLoop urls file w ((rustParseUsize v).getD 5) r rest
    else if a = "--retries" then
      parseLoop urls file w t ((rustParseUsize v).getD 0) rest
    else if rustStartsWith a "--" then
      ParseResult.usageExit
    else
      parseLoop (urls ++ [a]) file w t r (v :: rest)

/-- Outcome of the pre-flight part of fn main: before any worker is spawned
the process either exits with the usage message (code 2), exits because the
URL file could not be read (code 1), or proceeds to run the checks over a
final URL batch with the parsed configuration. -/
inductive MainOutcome where
  | usage
  | fileError (path : String)
  | run (urls : List String) (workers timeoutSecs retries : Nat)
deriving DecidableEq

/-- The pre-flight control flow of fn main: parse the arguments (after the
program name); when the loop hit a usage error, exit 2; otherwise, when a
"--file" path was recorded, read it through the filesystem map fs (none
models any open or read failure) and append its filtered lines to the
positional URLs; an unreadable file exits with code 1; an empty final batch
reaches print_usage_and_exit (code 2); otherwise the checks run on the
batch. -/
def mainModel (args : List String) (defaultWorkers : Nat)
    (fs : String → Option (List String)) : MainOutcome :=
  match parseLoop [] none defaultWorkers 5 0 args with
  | ParseResult.usageExit => MainOutcome.usage
  | ParseResult.parsed urls file w t r =>
    match file with
    | some path =>
      match fs path with
      | none => MainOutcome.fileError path
      | some lines =>
        let allUrls := urls ++ read_urls_from_file lines
        if allUrls = [] then MainOutcome.usage
        else MainOutcome.run allUrls w t r
    | none =>
      if urls = [] then MainOutcome.usage
      else MainOutcome.run urls w t r

/-- Process exit code of the outcomes that terminate before any check:
usage errors exit with 2 (print_usage_and_exit), file read failures with 1;
a run outcome does not exit early. -/
def exitCodeEarly : MainOutcome → Option Nat
  | MainOutcome.usage => some 2
  | MainOutcome.fileError _ => some 1
  | MainOutcome.run _ _ _ _ => none

/-- Network activity happens only on the run outcome: workers are spawned
and check_website is invoked only after all pre-flight steps succeed. -/
def performsChecks : MainOutcome → Bool
  | MainOutcome.run _ _ _ _ => true
  | _ => false

/-- The status.json report is written only at the very end of the run
outcome; the early-exit outcomes write no report. -/
def writesReport : MainOutcome → Bool
  | MainOutcome.run _ _ _ _ => true
  | _ => false

/-- Counterexample to claim C4: with the invocation
"--workers abc http://a" the numeric value of "--workers" is unparseable,
yet the program does not exit: parse().unwrap_or(workers) silently keeps
the default worker count and the checks are performed. -/
theorem c4_counterexample_unparseable_flag_still_runs :
    mainModel ["--workers", "abc", "http://a"] 4 (fun _ => none)
      = MainOutcome.run ["http://a"] 4 5 0 ∧
    exitCodeEarly (mainModel ["--workers", "abc", "http://a"] 4 (fun _ => none))
      = none ∧
    performsChecks (mainModel ["--workers", "abc", "http://a"] 4 (fun _ => none))
      = true := by
  refine ⟨by decide, by decide, by decide⟩

/-- Claim C4 as amended: an unparseable numeric flag value does not abort
the run; the flag silently falls back exactly as unwrap_or prescribes
("--workers" keeps the current worker count, "--timeout" becomes 5 seconds,
"--retries" becomes 0) and parsing continues with the remaining
arguments. -/
theorem c4_unparseable_flag_falls_back (urls : List String)
    (file : Option String) (w t r : Nat) (v : String) (rest : List String)
    (hv : rustParseUsize v = none) :
    parseLoop urls file w t r ("--workers" :: v :: rest)
      = parseLoop urls file w t r rest ∧
    parseLoop urls file w t r ("--timeout" :: v :: rest)
      = parseLoop urls file w 5 r rest ∧
    parseLoop urls file w t r ("--retries" :: v :: rest)
      = parseLoop urls file w t 0 rest := by
  refine ⟨?_, ?_, ?_⟩ <;>
    · simp only [parseLoop]
      simp [hv]

theorem c4_unparseable_flag_falls_back_witness :
    rustParseUsize "abc" = none ∧
    parseLoop [] none 4 5 0 ["--workers", "abc", "http://a"]
      = parseLoop [] none 4 5 0 ["http://a"] ∧
    parseLoop [] none 4 5 0 ["--retries", "zz"]
      = parseLoop [] none 4 5 0 [] := by
  have h1 := c4_unparseable_flag_falls_back [] none 4 5 0 "abc" ["http://a"]
    (by decide)
  have h2 := c4_unparseable_flag_falls_back [] none 4 5 0 "zz" [] (by decide)
  exact ⟨by decide, h1.1, by rw [h2.2.2]⟩

/-- Counterexample to claim C5: the loader keeps the line "  http://a  "
(its trimmed content is non-empty and not a comment) but collects it
verbatim, with its surrounding whitespace, not trimmed. -/
theorem c5_counterexample_line_kept_untrimmed :
    read_urls_from_file ["  http://a  "] = ["  http://a  "] ∧
    rustTrim "  http://a  " ≠ "  http://a  " := by
  refine ⟨by decide, by decide⟩

/-- Claim C5 as amended: the loader's URL list is exactly the subsequence
of the file's lines whose trimmed content is neither empty nor starts with
'#'; each retained line is kept verbatim (in particular it is not
trimmed). -/
theorem c5_loader_keeps_noncomment_lines_verbatim (lines : List String) :
    (read_urls_from_file lines).Sublist lines ∧
    ∀ l, l ∈ read_urls_from_file lines ↔
      l ∈ lines ∧ rustTrim l ≠ "" ∧ rustStartsWith (rustTrim l) "#" = false := by
  refine ⟨List.filter_sublist lines, ?_⟩
  intro l
  simp [read_urls_from_file, List.mem_filter, keepLine]

/-- Claim C6: an invocation whose parsing yields no positional URLs and no
"--file" flag reaches print_usage_and_exit: the process exits with code 2,
performs no network activity and writes no report. -/
theorem c6_empty_batch_exits_with_usage (args : List String)
    (defaultWorkers : Nat) (fs : String → Option (List String)) (w t r : Nat)
    (hp : parseLoop [] none defaultWorkers 5 0 args
      = ParseResult.parsed [] none w t r) :
    mainModel args defaultWorkers fs = MainOutcome.usage ∧
    exitCodeEarly (mainModel args defaultWorkers fs) = some 2 ∧
    performsChecks (mainModel args defaultWorkers fs) = false ∧
    writesReport (mainModel args defaultWorkers fs) = false := by
  have hm : mainModel args defaultWorkers fs = MainOutcome.usage := by
    unfold mainModel
    rw [hp]
    simp
  exact ⟨hm, by rw [hm]; rfl, by rw [hm]; rfl, by rw [hm]; rfl⟩

theorem c6_empty_batch_exits_with_usage_witness :
    mainModel [] 4 (fun _ => none) = MainOutcome.usage ∧
    exitCodeEarly (mainModel [] 4 (fun _ => none)) = some 2 ∧
    performsChecks (mainModel [] 4 (fun _ => none)) = false := by
  have h := c6_empty_batch_exits_with_usage [] 4 (fun _ => none) 4 5 0 rfl
  exact ⟨h.1, h.2.1, h.2.2.1⟩

/-- Claim C7: when the "--file" path cannot be opened or read, the process
exits with code 1, performs no network activity and writes no report. -/
theorem c7_unreadable_file_exits_one (args : List String)
    (defaultWorkers : Nat) (fs : String → Option (List String))
    (urls : List String) (path : String) (w t r : Nat)
    (hp : parseLoop [] none defaultWorkers 5 0 args
      = ParseResult.parsed urls (some path) w t r)
    (hfs : fs path = none) :
    mainModel args defaultWorkers fs = MainOutcome.fileError path ∧
    exitCodeEarly (mainModel args defaultWorkers fs) = some 1 ∧
    performsChecks (mainModel args defaultWorkers fs) = false ∧
    writesReport (mainModel args defaultWorkers fs) = false := by
  have hm : mainModel args defaultWorkers fs = MainOutcome.fileError path := by
    unfold mainModel
    rw [hp]
    simp [hfs]
  exact ⟨hm, by rw [hm]; rfl, by rw [hm]; rfl, by rw [hm]; rfl⟩

theorem c7_unreadable_file_exits_one_witness :
    mainModel ["--file", "sites.txt"] 4 (fun _ => none)
      = MainOutcome.fileError "sites.txt" ∧
    exitCodeEarly (mainModel ["--file", "sites.txt"] 4 (fun _ => none))
      = some 1 ∧
    performsChecks (mainModel ["--file", "sites.txt"] 4 (fun _ => none))
      = false := by
  have h := c7_unreadable_file_exits_one ["--file", "sites.txt"] 4
    (fun _ => none) [] "sites.txt" 4 5 0 (by decide) rfl
  exact ⟨h.1, h.2.1, h.2.2.1⟩

/-- Claim C10: when parsing recorded both positional URLs and a readable
"--file" path, both sources are used and the final batch is the positional
URLs in command-line order followed by the file's filtered URLs in file
order: the file list is appended after the positional list, wherever the
"--file" flag appeared on the command line. -/
theorem c10_positional_then_file_order (args : List String)
    (defaultWorkers : Nat) (fs : String → Option (List String))
    (pos : List String) (path : String) (w t r : Nat) (lines : List String)
    (hp : parseLoop [] none defaultWorkers 5 0 args
      = ParseResult.parsed pos (some path) w t r)
    (hfs : fs path = some lines) (hpos : pos ≠ []) :
    mainModel args defaultWorkers fs
      = MainOutcome.run (pos ++ read_urls_from_file lines) w t r := by
  unfold mainModel
  rw [hp]
  simp only [hfs]
  rw [if_neg (by simp [hpos])]

theorem c10_positional_then_file_order_witness :
    mainModel ["u1", "--file", "f.txt", "u2"] 4
        (fun p => if p = "f.txt" then some ["x", " #c", "", "y"] else none)
      = MainOutcome.run ["u1", "u2", "x", "y"] 4 5 0 := by
  have h := c10_positional_then_file_order ["u1", "--file", "f.txt", "u2"] 4
    (fun p => if p = "f.txt" then some ["x", " #c", "", "y"] else none)
    ["u1", "u2"] "f.txt" 4 5 0 ["x", " #c", "", "y"]
    (by decide) (by decide) (by decide)
  rw [h]
  decide

/-- The status field of one report object exactly as main formats it: the
bare number on success, the error message surrounded by quotes (with no
escaping of the message's own characters) on failure. -/
def statusField : RStatus → String
  | RStatus.ok code => toString code
  | RStatus.err msg => "\"" ++ msg ++ "\""

/-- One report object exactly as the format! call in main produces it
(the url emitted verbatim between quotes, time_ms the elapsed milliseconds,
timestamp the epoch seconds). -/
def jsonObj (s : WebsiteStatus) : String :=
  "  \x7b \"url\": \"" ++ s.url ++ "\", \"status\": " ++ statusField s.action_status
    ++ ", \"time_ms\": " ++ toString s.response_time
    ++ ", \"timestamp\": " ++ toString s.timestamp ++ " \x7d"

/-- The report-building loop of main: objects joined by ",\n" (the comma is
pushed after every entry except the last). -/
def renderBody : List WebsiteStatus → String
  | [] => ""
  | [s] => jsonObj s
  | s :: rest => jsonObj s ++ ",\n" ++ renderBody rest

/-- The full report text main builds before std::fs::write. -/
def render (results : List WebsiteStatus) : String :=
  "[\n" ++ renderBody results ++ "\n]\n"

/-- The single write performed at the end of main: the report text goes to
the fixed path "status.json". -/
def reportOutput (results : List WebsiteStatus) : String × String :=
  ("status.json", render results)

/-- JSON string-body escaping for the characters the report can need:
quote and backslash get a backslash escape; every other character stands
for itself. -/
def escChars : List Char → List Char
  | [] => []
  | c :: cs =>
    (if c.toNat = 34 then [Char.ofNat 92, Char.ofNat 34]
     else if c.toNat = 92 then [Char.ofNat 92, Char.ofNat 92]
     else [c]) ++ escChars cs

/-- JSON string-body escaping lifted to strings. -/
def jsonEscape (s : String) : String :=
  ⟨escChars s.data⟩

/-- A character that may stand for itself inside a JSON string body:
not a quote, not a backslash, not a control character. -/
def jsonSafeChar (c : Char) : Bool :=
  !(c.toNat = 34) && !(c.toNat = 92) && decide (31 < c.toNat)

/-- A string whose every character may appear verbatim in a JSON string
body. -/
def jsonSafe (s : String) : Bool :=
  s.data.all jsonSafeChar

/-- Separator join used by the specification-side renderer. -/
def joinWith (sep : String) : List String → String
  | [] => ""
  | [x] => x
  | x :: xs => x ++ sep ++ joinWith sep xs

/-- The report renderer as the specification describes it: a JSON array
with exactly one object per record, fields url (a JSON string), status (the
numeric code on success, a JSON string message on failure), time_ms
(integer milliseconds) and timestamp (integer epoch seconds); string bodies
are JSON-escaped so that the array is well formed. -/
def specStatusField : RStatus → String
  | RStatus.ok code => toString code
  | RStatus.err msg => "\"" ++ jsonEscape msg ++ "\""

/-- One object of the specification-side report. -/
def specObj (s : WebsiteStatus) : String :=
  "  \x7b \"url\": \"" ++ jsonEscape s.url ++ "\", \"status\": "
    ++ specStatusField s.action_status
    ++ ", \"time_ms\": " ++ toString s.response_time
    ++ ", \"timestamp\": " ++ toString s.timestamp ++ " \x7d"

/-- The specification-side report: one object per record, joined into a
JSON array with the layout the code uses. -/
def specRender (results : List WebsiteStatus) : String :=
  "[\n" ++ joinWith ",\n" (results.map specObj) ++ "\n]\n"

lemma escChars_of_safe : ∀ cs : List Char, (∀ c ∈ cs, jsonSafeChar c = true) →
    escChars cs = cs := by
  intro cs
  induction cs with
  | nil => intro _; rfl
  | cons c cs ih =>
    intro h
    have hc := h c (by simp)
    simp only [jsonSafeChar, Bool.and_eq_true, Bool.not_eq_true',
      decide_eq_true_eq, decide_eq_false_iff_not] at hc
    rw [escChars]
    rw [if_neg (by simpa using hc.1.1), if_neg (by simpa using hc.1.2)]
    simp [ih fun x hx => h x (by simp [hx])]

lemma jsonEscape_of_safe (s : String) (h : jsonSafe s = true) :
    jsonEscape s = s := by
  have hd : escChars s.data = s.data := by
    apply escChars_of_safe
    simpa [jsonSafe, List.all_eq_true] using h
  cases s with
  | mk data => simpa [jsonEscape] using congrArg String.mk hd

/-- Safety of every string of a record: its url and, on failure, its error
message. -/
def recordSafe (s : WebsiteStatus) : Bool :=
  jsonSafe s.url &&
    (match s.action_status with
     | RStatus.ok _ => true
     | RStatus.err msg => jsonSafe msg)

lemma jsonObj_eq_specObj (s : WebsiteStatus) (h : recordSafe s = true) :
    jsonObj s = specObj s := by
  rcases s with ⟨url, st, rt, ts⟩
  rcases st with code | msg
  · simp only [recordSafe, Bool.and_eq_true] at h
    simp [jsonObj, specObj, statusField, specStatusField,
      jsonEscape_of_safe _ h.1]
  · simp only [recordSafe, Bool.and_eq_true] at h
    simp [jsonObj, specObj, statusField, specStatusField,
      jsonEscape_of_safe _ h.1, jsonEscape_of_safe _ h.2]

lemma joinWith_cons₂ (sep x y : String) (ys : List String) :
    joinWith sep (x :: y :: ys) = x ++ sep ++ joinWith sep (y :: ys) := rfl

lemma renderBody_cons₂ (s s2 : WebsiteStatus) (rest : List WebsiteStatus) :
    renderBody (s :: s2 :: rest) = jsonObj s ++ ",\n" ++ renderBody (s2 :: rest) := rfl

lemma renderBody_eq_joinWith (results : List WebsiteStatus)
    (h : ∀ s ∈ results, recordSafe s = true) :
    renderBody results = joinWith ",\n" (results.map specObj) := by
  induction results with
  | nil => rfl
  | cons s rest ih =>
    rcases rest with _ | ⟨s2, rest2⟩
    · simpa [renderBody, joinWith] using jsonObj_eq_specObj s (h s (by simp))
    · rw [renderBody_cons₂, List.map_cons, List.map_cons, joinWith_cons₂,
        jsonObj_eq_specObj s (h s (by simp))]
      rw [← List.map_cons]
      rw [ih fun x hx => h x (by simp at hx ⊢; tauto)]

/-- Counterexample to claim C8: a record whose url contains a quote
character is not rendered as the JSON object the specification describes —
the unescaped quote makes the output differ from the well-formed
serialization (and leaves it malformed). -/
theorem c8_counterexample_unescaped_quote :
    render [⟨"http://a/\"x", RStatus.ok 200, 10, 100⟩]
      ≠ specRender [⟨"http://a/\"x", RStatus.ok 200, 10, 100⟩] := by
  decide

/-- Claim C8 as amended: for every collected result list all of whose
strings (urls and failure messages) consist of JSON-safe characters — no
quote, no backslash, no control character — the rendered report is exactly
the JSON array the specification describes: one object per record with
fields url, status (number on success, string on failure), time_ms and
timestamp, and it is written to the fixed path "status.json".  The code
performs no JSON escaping, so records with JSON-special characters in
their strings yield a malformed report. -/
theorem c8_report_is_json_array_for_safe_records (results : List WebsiteStatus)
    (h : ∀ s ∈ results, recordSafe s = true) :
    render results = specRender results ∧
    reportOutput results = ("status.json", specRender results) := by
  have hr : render results = specRender results := by
    unfold render specRender
    rw [renderBody_eq_joinWith results h]
  exact ⟨hr, by rw [reportOutput, hr]⟩

theorem c8_report_is_json_array_for_safe_records_witness :
    render [⟨"http://a", RStatus.err "connect timed out", 150, 1700000000⟩]
      = specRender [⟨"http://a", RStatus.err "connect timed out", 150, 1700000000⟩] ∧
    (reportOutput [⟨"http://a", RStatus.err "connect timed out", 150, 1700000000⟩]).1
      = "status.json" := by
  have h := c8_report_is_json_array_for_safe_records
    [⟨"http://a", RStatus.err "connect timed out", 150, 1700000000⟩]
    (by decide)
  exact ⟨h.1, by rw [h.2]⟩

/-- State of one worker thread of the pool: blocked on rx.lock().recv()
(idle), holding a claimed URL whose check and publication are still pending
(busy), or exited from its while-let loop after the channel reported
depletion (done). -/
inductive WState where
  | idle
  | busy (url : String)
  | done
deriving DecidableEq

/-- Global state of the concurrent part of fn main: the URL channel
backlog (all URLs are sent before the workers start and tx is dropped, so
the backlog only drains), the worker states, and the records the collector
has received from the result channel, in arrival order. -/
structure SysState where
  queue : List String
  workers : List WState
  results : List WebsiteStatus
deriving DecidableEq

/-- The record a worker publishes for a claimed URL: check_website applied
to that URL under the per-URL probe environment. -/
def runCheck (env : String → ProbeEnv) (t R W : Nat) (u : String) :
    WebsiteStatus :=
  (check_website (env u) u t R W).1

/-- One scheduler step of the pool.  claim: a worker holding the receiver
lock takes the front URL of the backlog (mpsc recv is atomic, so two
workers never take the same URL).  publish: a worker finishes its check and
sends the record to the collector.  retire: a worker whose recv observed an
empty, closed channel exits its loop.  The worker is identified by its
position (the lists l and r of the other workers' states); the interleaving
of steps across workers is arbitrary. -/
inductive Step (env : String → ProbeEnv) (t R W : Nat) :
    SysState → SysState → Prop
  | claim (u : String) (q : List String) (l r : List WState)
      (rs : List WebsiteStatus) :
      Step env t R W ⟨u :: q, l ++ WState.idle :: r, rs⟩
        ⟨q, l ++ WState.busy u :: r, rs⟩
  | publish (u : String) (q : List String) (l r : List WState)
      (rs : List WebsiteStatus) :
      Step env t R W ⟨q, l ++ WState.busy u :: r, rs⟩
        ⟨q, l ++ WState.idle :: r, rs ++ [runCheck env t R W u]⟩
  | retire (l r : List WState) (rs : List WebsiteStatus) :
      Step env t R W ⟨[], l ++ WState.idle :: r, rs⟩
        ⟨[], l ++ WState.done :: r, rs⟩

/-- Reachability under any interleaving of worker steps. -/
def Reach (env : String → ProbeEnv) (t R W : Nat) :
    SysState → SysState → Prop :=
  Relation.ReflTransGen (Step env t R W)

/-- The state right after main loads the channel with the URL batch and
spawns n workers: full backlog, all workers idle, no results yet. -/
def init (urls : List String) (n : Nat) : SysState :=
  ⟨urls, List.replicate n WState.idle, []⟩

/-- The collector's for-loop over result_rx ends exactly when every worker
has exited (all result senders dropped); the results list is then final. -/
def Terminal (s : SysState) : Prop :=
  ∀ w ∈ s.workers, w = WState.done

instance (s : SysState) : Decidable (Terminal s) :=
  List.decidableBAll _ s.workers

/-- URLs claimed by some worker whose record has not been published yet. -/
def inflight : List WState → List String
  | [] => []
  | WState.busy u :: ws => u :: inflight ws
  | WState.idle :: ws => inflight ws
  | WState.done :: ws => inflight ws

lemma inflight_idle_cons (ws : List WState) :
    inflight (WState.idle :: ws) = inflight ws := rfl

lemma inflight_busy_cons (u : String) (ws : List WState) :
    inflight (WState.busy u :: ws) = u :: inflight ws := rfl

lemma inflight_done_cons (ws : List WState) :
    inflight (WState.done :: ws) = inflight ws := rfl

lemma inflight_append (a b : List WState) :
    inflight (a ++ b) = inflight a ++ inflight b := by
  induction a with
  | nil => rfl
  | cons w ws ih =>
    cases w <;> simp [inflight_idle_cons, inflight_busy_cons,
      inflight_done_cons, inflight, ih]

lemma inflight_of_all_done (ws : List WState)
    (h : ∀ w ∈ ws, w = WState.done) : inflight ws = [] := by
  induction ws with
  | nil => rfl
  | cons w ws ih =>
    have hw := h w (by simp)
    subst hw
    exact ih fun x hx => h x (by simp [hx])

/-- Conservation invariant of the pool: the workers are the ones spawned
(a nonempty list once n is at least 1); if every worker has exited then the
backlog is empty (a worker only exits on an empty closed channel and the
backlog never grows); and every submitted URL is in exactly one place —
still queued, claimed in flight, or represented by exactly one collected
record. -/
def Inv (urls : List String) (s : SysState) : Prop :=
  s.workers ≠ [] ∧
  ((∀ w ∈ s.workers, w = WState.done) → s.queue = []) ∧
  (s.queue : Multiset String) + ↑(inflight s.workers)
      + ↑(s.results.map WebsiteStatus.url) = ↑urls

lemma step_preserves_inv (env : String → ProbeEnv) (t R W : Nat)
    (urls : List String) (s s' : SysState)
    (hs : Step env t R W s s') (hi : Inv urls s) : Inv urls s' := by
  obtain ⟨hne, hJ, hm⟩ := hi
  cases hs with
  | claim u q l r rs =>
    refine ⟨by simp, ?_, ?_⟩
    · intro hall
      have := hall (WState.busy u) (by simp)
      cases this
    · simp only [inflight_append, inflight_idle_cons, inflight_busy_cons] at hm ⊢
      rw [← hm]
      simp only [← Multiset.cons_coe, ← Multiset.coe_add,
        ← Multiset.singleton_add]
      abel
  | publish u q l r rs =>
    refine ⟨by simp, ?_, ?_⟩
    · intro hall
      have := hall WState.idle (by simp)
      cases this
    · simp only [inflight_append, inflight_idle_cons, inflight_busy_cons,
        List.map_append, List.map_cons, List.map_nil] at hm ⊢
      rw [← hm]
      simp only [runCheck, check_website]
      simp only [← Multiset.cons_coe, ← Multiset.coe_add,
        ← Multiset.singleton_add]
      abel
  | retire l r rs =>
    refine ⟨by simp, fun _ => rfl, ?_⟩
    simp only [inflight_append, inflight_idle_cons, inflight_done_cons]
      at hm ⊢
    exact hm

lemma reach_preserves_inv (env : String → ProbeEnv) (t R W : Nat)
    (urls : List String) (s s' : SysState)
    (hr : Reach env t R W s s') (hi : Inv urls s) : Inv urls s' := by
  induction hr with
  | refl => exact hi
  | tail _ hstep ih => exact step_preserves_inv env t R W urls _ _ hstep ih

lemma init_inv (urls : List String) (m : Nat) :
    Inv urls (init urls (m + 1)) := by
  refine ⟨by simp [init], ?_, ?_⟩
  · intro hall
    have := hall WState.idle (by simp [init, List.replicate_succ])
    cases this
  · have hi : inflight (List.replicate (m + 1) WState.idle) = [] := by
      induction m + 1 with
      | zero => rfl
      | succ k ih => simp [List.replicate_succ, inflight_idle_cons, ih]
    simp [init, hi]

lemma step_cons (env : String → ProbeEnv) (t R W : Nat) (w : WState)
    (s s' : SysState) (h : Step env t R W s s') :
    Step env t R W ⟨s.queue, w :: s.workers, s.results⟩
      ⟨s'.queue, w :: s'.workers, s'.results⟩ := by
  cases h with
  | claim u q l r rs => exact Step.claim u q (w :: l) r rs
  | publish u q l r rs => exact Step.publish u q (w :: l) r rs
  | retire l r rs => exact Step.retire (w :: l) r rs

lemma reach_cons (env : String → ProbeEnv) (t R W : Nat) (w : WState)
    (s s' : SysState) (h : Reach env t R W s s') :
    Reach env t R W ⟨s.queue, w :: s.workers, s.results⟩
      ⟨s'.queue, w :: s'.workers, s'.results⟩ := by
  unfold Reach at h ⊢
  exact Relation.ReflTransGen.lift
    (fun x : SysState => (⟨x.queue, w :: x.workers, x.results⟩ : SysState))
    (fun a b hab => step_cons env t R W w a b hab) h

/-- A single worker can drain the whole backlog by alternating claim and
publish steps. -/
lemma drain (env : String → ProbeEnv) (t R W : Nat) (ws : List WState) :
    ∀ (q : List String) (rs : List WebsiteStatus),
      Reach env t R W ⟨q, WState.idle :: ws, rs⟩
        ⟨[], WState.idle :: ws, rs ++ q.map (runCheck env t R W)⟩ := by
  intro q
  induction q with
  | nil =>
    intro rs
    have h0 : Reach env t R W ⟨[], WState.idle :: ws, rs⟩
        ⟨[], WState.idle :: ws, rs⟩ := Relation.ReflTransGen.refl
    simpa using h0
  | cons u q ih =>
    intro rs
    have h1 : Step env t R W ⟨u :: q, WState.idle :: ws, rs⟩
        ⟨q, WState.busy u :: ws, rs⟩ := Step.claim u q [] ws rs
    have h2 : Step env t R W ⟨q, WState.busy u :: ws, rs⟩
        ⟨q, WState.idle :: ws, rs ++ [runCheck env t R W u]⟩ :=
      Step.publish u q [] ws rs
    have h3 := ih (rs ++ [runCheck env t R W u])
    have : Reach env t R W ⟨u :: q, WState.idle :: ws, rs⟩
        ⟨[], WState.idle :: ws, (rs ++ [runCheck env t R W u])
          ++ q.map (runCheck env t R W)⟩ :=
      ((Relation.ReflTransGen.single h1).trans
        (Relation.ReflTransGen.single h2)).trans h3
    simpa [List.append_assoc] using this

/-- Once the backlog is empty, all still-idle workers can exit one after
the other. -/
lemma retireAll (env : String → ProbeEnv) (t R W : Nat) :
    ∀ (ws : List WState) (rs : List WebsiteStatus),
      (∀ w ∈ ws, w = WState.idle) →
      Reach env t R W ⟨[], ws, rs⟩
        ⟨[], List.replicate ws.length WState.done, rs⟩ := by
  intro ws
  induction ws with
  | nil =>
    intro rs _
    have h0 : Reach env t R W ⟨[], [], rs⟩ ⟨[], [], rs⟩ :=
      Relation.ReflTransGen.refl
    simpa using h0
  | cons w ws ih =>
    intro rs h
    have hw := h w (by simp)
    subst hw
    have h1 : Step env t R W ⟨[], WState.idle :: ws, rs⟩
        ⟨[], WState.done :: ws, rs⟩ := Step.retire [] ws rs
    have h2 := reach_cons env t R W WState.done _ _
      (ih rs fun x hx => h x (by simp [hx]))
    have : Reach env t R W ⟨[], WState.idle :: ws, rs⟩
        ⟨[], WState.done :: List.replicate ws.length WState.done, rs⟩ :=
      (Relation.ReflTransGen.single h1).trans h2
    simpa [List.replicate_succ] using this

/-- Claim C1 as amended: for every non-empty URL batch and every worker
count of at least one, the run terminates (some interleaving reaches a
terminal state), and in every reachable terminal state the collector holds
exactly one CheckRecord per submitted URL — the multiset of the records'
urls equals the multiset of submitted URLs, so nothing is lost or
duplicated and the number of records equals the number of URLs. -/
theorem c1_collector_gets_exactly_one_record_per_url
    (env : String → ProbeEnv) (t R W n : Nat) (urls : List String)
    (hn : 1 ≤ n) (hurls : urls ≠ []) :
    (∃ s, Reach env t R W (init urls n) s ∧ Terminal s) ∧
    ∀ s, Reach env t R W (init urls n) s → Terminal s →
      (s.results.map WebsiteStatus.url : Multiset String) = (urls : Multiset String) ∧
      s.results.length = urls.length := by
  obtain ⟨m, rfl⟩ : ∃ m, n = m + 1 := ⟨n - 1, by omega⟩
  constructor
  · have hd := drain env t R W (List.replicate m WState.idle) urls []
    have hr := retireAll env t R W
      (WState.idle :: List.replicate m WState.idle)
      (urls.map (runCheck env t R W))
      (by
        intro x hx
        rcases List.mem_cons.mp hx with h | h
        · exact h
        · exact List.eq_of_mem_replicate h)
    refine ⟨⟨[], List.replicate (WState.idle :: List.replicate m WState.idle).length
        WState.done, urls.map (runCheck env t R W)⟩, ?_, ?_⟩
    · have hinit : init urls (m + 1)
          = ⟨urls, WState.idle :: List.replicate m WState.idle, []⟩ := by
        simp [init, List.replicate_succ]
      have hd2 : Reach env t R W
          ⟨urls, WState.idle :: List.replicate m WState.idle, []⟩
          ⟨[], WState.idle :: List.replicate m WState.idle,
            urls.map (runCheck env t R W)⟩ := by
        simpa using hd
      rw [hinit]
      exact Relation.ReflTransGen.trans hd2 hr
    · intro w hw
      exact List.eq_of_mem_replicate hw
  · intro s hr ht
    have hi := reach_preserves_inv env t R W urls _ _ hr (init_inv urls m)
    obtain ⟨_, hJ, hm⟩ := hi
    have hq : s.queue = [] := hJ ht
    have hf : inflight s.workers = [] := inflight_of_all_done s.workers ht
    rw [hq, hf] at hm
    simp only [Multiset.coe_nil, zero_add] at hm
    refine ⟨hm, ?_⟩
    have := congrArg Multiset.card hm
    simpa [Multiset.coe_card] using this

/-- A concrete probe environment for the C1 witness and counterexample. -/
def envOk : String → ProbeEnv :=
  fun _ => ⟨fun _ => RStatus.ok 200, fun _ => 5⟩

theorem c1_collector_gets_exactly_one_record_per_url_witness :
    ∃ s, Reach envOk 5 0 0 (init ["http://a"] 1) s ∧ Terminal s ∧
      s.results.length = 1 := by
  obtain ⟨⟨s, hr, ht⟩, hall⟩ :=
    c1_collector_gets_exactly_one_record_per_url envOk 5 0 0 1 ["http://a"]
      (by omega) (by simp)
  exact ⟨s, hr, ht, ((hall s hr ht).2).trans rfl⟩

/-- Counterexample to claim C1 as stated: with worker count 0 — accepted by
the program via "--workers 0" — the initial state is already terminal (there
is no worker left to finish), the backlog is never drained, and the
collector's final result list is empty although one URL was submitted. -/
theorem c1_counterexample_zero_workers :
    Reach envOk 5 0 0 (init ["http://a"] 0) (init ["http://a"] 0) ∧
    Terminal (init ["http://a"] 0) ∧
    (init ["http://a"] 0).results.length = 0 ∧
    (["http://a"] : List String).length = 1 := by
  exact ⟨Relation.ReflTransGen.refl, by decide, rfl, rfl⟩

end WSC
